import Mathlib

/-!
Shallow embedding of `src/Hospital.py` (a single-pass pandas cleaning
pipeline) and proofs about its cleaning, derivation, deduplication and
summary stages.

Strings are modelled as lists of character codes (`Str`); numeric cells
are modelled as integers (all inputs appearing in the properties below
are integral).  Cell values are `Value.null` (NaN), `Value.str` or
`Value.num`.  A pandas column is a named, kinded list of cells; a
DataFrame is a list of columns.  The `pd.to_datetime` library call is
kept as an explicit function parameter `dp` of the pipeline, since no
property below depends on the shape of parsed timestamps.
-/

/-- Character-code strings: a Python `str` as the list of its code points. -/
abbrev Str := List Nat

/-- Code points of a Lean string literal, used to write concrete inputs. -/
def codes (s : String) : Str := s.data.map Char.toNat

/-- Whitespace test matching Python's `\s` / `str.strip` on ASCII:
space or the control range tab..carriage-return. -/
def wsB (n : Nat) : Bool := decide (n = 32 ∨ (9 ≤ n ∧ n ≤ 13))

/-- Word-character test matching Python's `\w` on ASCII:
digits, letters, underscore. -/
def wordB (n : Nat) : Bool :=
  decide ((48 ≤ n ∧ n ≤ 57) ∨ (65 ≤ n ∧ n ≤ 90) ∨ (97 ≤ n ∧ n ≤ 122) ∨ n = 95)

/-- Characters kept by `re.sub(r"[^\w\s]", "", s)` in `to_snake`. -/
def keepB (n : Nat) : Bool := wordB n || wsB n

/-- ASCII lowercasing of one code point, as in `str.lower`. -/
def lowerN (n : Nat) : Nat := if 65 ≤ n ∧ n ≤ 90 then n + 32 else n

/-- ASCII lowercasing of a whole string. -/
def lowerStr (s : Str) : Str := s.map lowerN

/-- Python `str.strip()`: drop leading and trailing whitespace. -/
def stripLN (s : Str) : Str :=
  ((s.dropWhile wsB).reverse.dropWhile wsB).reverse

/-- Replaces each maximal whitespace run by the single code `r`
(`re.sub(r"\s+", r, s)`); the flag records whether we are inside a run
whose replacement has already been emitted. -/
def collapseRuns (r : Nat) : Bool → Str → Str
  | _, [] => []
  | inRun, c :: rest =>
    if wsB c then
      if inRun then collapseRuns r true rest else r :: collapseRuns r true rest
    else c :: collapseRuns r false rest

/-- Column-name normalization from `Hospital.py` lines 27-31: strip,
delete non-word non-space characters, turn whitespace runs into a single
underscore (code 95), lowercase. -/
def to_snake (s : Str) : Str :=
  lowerStr (collapseRuns 95 false ((stripLN s).filter keepB))

/-- A cell of the table: NaN, a Python string, or a number.  Numbers are
modelled as integers (every numeric input relevant to the verified
properties is integral). -/
inductive Value where
  | null : Value
  | str : Str → Value
  | num : Int → Value
deriving DecidableEq, Repr

/-- Pandas dtype of a column, at the fidelity the script inspects it:
`obj` for `object`, `numeric` after `pd.to_numeric` (or inferred numbers),
`date` after `pd.to_datetime`, `cat` for the categorical `pd.cut` output. -/
inductive ColKind where
  | obj | numeric | date | cat
deriving DecidableEq, Repr

/-- One DataFrame column: normalized-or-raw header name, dtype, cells. -/
structure Column where
  name : Str
  kind : ColKind
  cells : List Value
deriving DecidableEq, Repr

/-- A DataFrame, as its list of columns in order. -/
abbrev Table := List Column

/-- First column with the given (exact) name, as `df[name]` after header
normalization. -/
def findCol (t : Table) (s : Str) : Option Column :=
  t.find? (fun c => decide (c.name = s))

/-- Membership test for a column name, `has(df, colname)` in the script. -/
def hasCol (t : Table) (s : Str) : Bool := (findCol t s).isSome

/-- Number of rows, `len(df)`: the length of the first column (0 if the
table has no columns). -/
def nRows : Table → Nat
  | [] => 0
  | c :: _ => c.cells.length

/-- Row `i` of the table across all columns (absent positions read null). -/
def rowAt (t : Table) (i : Nat) : List Value :=
  t.map (fun c => c.cells.getD i Value.null)

/-- Column assignment `df[name] = series`: replaces the column in place
when the name exists, else appends it on the right. -/
def setCol (t : Table) (c : Column) : Table :=
  if hasCol t c.name then
    t.map (fun c0 => if c0.name = c.name then c else c0)
  else t ++ [c]

/-- Decimal rendering of an integer, `str(n)`. -/
def numToStr (n : Int) : Str := (toString n).data.map Char.toNat

/-- Python's `astype(str)` on one cell: NaN prints as "nan". -/
def cellToStr : Value → Str
  | .null => codes "nan"
  | .str s => s
  | .num n => numToStr n

/-- Digit-run accumulator used by the numeric parser. -/
def digitsVal : Str → Nat → Option Nat
  | [], acc => some acc
  | d :: ds, acc =>
    if 48 ≤ d ∧ d ≤ 57 then digitsVal ds (acc * 10 + (d - 48)) else none

/-- Integer parsing of a string cell, modelling the integral fragment of
`pd.to_numeric`: optional sign then digits, anything else fails. -/
def parseIntStr (s : Str) : Option Int :=
  match stripLN s with
  | [] => none
  | c :: rest =>
    if c = 45 then
      match rest with
      | [] => none
      | _ => (digitsVal rest 0).map (fun m => -(m : Int))
    else if c = 43 then
      match rest with
      | [] => none
      | _ => (digitsVal rest 0).map (fun m => (m : Int))
    else (digitsVal (c :: rest) 0).map (fun m => (m : Int))

/-- One cell under `pd.to_numeric(errors="coerce")`: numbers pass
through, parsable strings become numbers, everything else becomes null. -/
def toNumericCell : Value → Value
  | .null => .null
  | .num n => .num n
  | .str s =>
    match parseIntStr s with
    | some n => .num n
    | none => .null

/-- Header normalization pass, line 38: rename every column with
`to_snake`. -/
def normalizeHeaders (t : Table) : Table :=
  t.map (fun c => { c with name := to_snake c.name })

/-- Light cleaning of one object-column cell, lines 44-48:
`astype(str).str.strip()` then mapping "nan"/"None"/"" back to null. -/
def cleanCell (v : Value) : Value :=
  let s := stripLN (cellToStr v)
  if s = codes "nan" ∨ s = codes "None" ∨ s = [] then .null else .str s

/-- Light cleaning stage, lines 42-48: applies `cleanCell` to every
column of object dtype. -/
def lightCleanStage (t : Table) : Table :=
  t.map (fun c =>
    if c.kind = .obj then { c with cells := c.cells.map cleanCell } else c)

/-- Column names coerced to numeric at lines 51-53. -/
def numericNames : List Str :=
  [codes "age", codes "pincode", codes "zipcode", codes "daywisesno",
   codes "tahsilid", codes "blockid", codes "stateid", codes "cityid",
   codes "districtid"]

/-- Numeric coercion stage, lines 51-53. -/
def coerceNumericStage (t : Table) : Table :=
  t.map (fun c =>
    if c.name ∈ numericNames then
      { name := c.name, kind := .numeric, cells := c.cells.map toNumericCell }
    else c)

/-- Substrings marking a column as date-like, line 57. -/
def dateNames : List Str :=
  [codes "date", codes "dob", codes "created", codes "updated",
   codes "registration"]

/-- Tests whether `pat` occurs at the start of `s`. -/
def startsWithStr : Str → Str → Bool
  | [], _ => true
  | _ :: _, [] => false
  | a :: pat, b :: s => decide (a = b) && startsWithStr pat s

/-- Substring containment, Python's `pat in s` on strings. -/
def subStrB (pat : Str) : Str → Bool
  | [] => startsWithStr pat []
  | b :: s => startsWithStr pat (b :: s) || subStrB pat s

/-- Date-like column-name test, line 57. -/
def dateNameB (s : Str) : Bool := dateNames.any (fun d => subStrB d s)

/-- Date parsing stage, lines 56-58.  The cell-level behaviour of
`pd.to_datetime(errors="coerce")` is the library call `dp`, kept as an
explicit parameter; the stage retypes matching columns to date dtype. -/
def dateStage (dp : Value → Value) (t : Table) : Table :=
  t.map (fun c =>
    if dateNameB c.name then
      { name := c.name, kind := .date, cells := c.cells.map dp }
    else c)

/-- Detected gender column, lines 61-64: "sex" first, then "gender". -/
def genderColName (t : Table) : Option Str :=
  if hasCol t (codes "sex") then some (codes "sex")
  else if hasCol t (codes "gender") then some (codes "gender")
  else none

/-- Synonym table `gmap` of line 67, applied by `Series.replace`: exact
matches are rewritten, anything else passes through. -/
def gmapApply (s : Str) : Str :=
  if s = codes "m" ∨ s = codes "male" then codes "M"
  else if s = codes "f" ∨ s = codes "female" then codes "F"
  else if s = codes "o" ∨ s = codes "other" ∨ s = codes "others" then codes "O"
  else s

/-- Gender normalization of one cell, lines 68-70:
`astype(str).str.strip().str.lower()`, synonym replacement, then the
`where(isin(["M","F","O"]), "Unknown")` guard. -/
def genderCell (v : Value) : Value :=
  let m := gmapApply (lowerStr (stripLN (cellToStr v)))
  if m = codes "M" ∨ m = codes "F" ∨ m = codes "O" then .str m
  else .str (codes "Unknown")

/-- Gender normalization stage, lines 61-70; a no-op when neither "sex"
nor "gender" exists. -/
def genderStage (t : Table) : Table :=
  match genderColName t with
  | none => t
  | some g =>
    t.map (fun c =>
      if c.name = g then
        { name := c.name, kind := .obj, cells := c.cells.map genderCell }
      else c)

/-- Range guard of line 75: ages below 0 or above 120 become null. -/
def rangeCell : Value → Value
  | .num n => if n < 0 ∨ 120 < n then .null else .num n
  | v => v

/-- Age cleanup of one cell, lines 74-75: numeric coercion then range
guard. -/
def ageCell (v : Value) : Value := rangeCell (toNumericCell v)

/-- Banding of one cleaned age, lines 76-81: `pd.cut` with bins
[0,12,18,30,45,60,75,120] and `right=True`; each interval excludes its
left endpoint, so 0 and null both fall outside every bin. -/
def bandCell : Value → Value
  | .num n =>
    if 0 < n ∧ n ≤ 12 then .str (codes "0-12")
    else if 12 < n ∧ n ≤ 18 then .str (codes "13-18")
    else if 18 < n ∧ n ≤ 30 then .str (codes "19-30")
    else if 30 < n ∧ n ≤ 45 then .str (codes "31-45")
    else if 45 < n ∧ n ≤ 60 then .str (codes "46-60")
    else if 60 < n ∧ n ≤ 75 then .str (codes "61-75")
    else if 75 < n ∧ n ≤ 120 then .str (codes "76+")
    else .null
  | _ => .null

/-- Cells of the "age" column, empty when the column is absent. -/
def ageColCells (t : Table) : List Value :=
  match findCol t (codes "age") with
  | some c => c.cells
  | none => []

/-- Age cleanup and banding stage, lines 73-81: cleans the "age" column
in place and appends the categorical "age_band" column. -/
def ageStage (t : Table) : Table :=
  if hasCol t (codes "age") then
    setCol
      (t.map (fun c =>
        if c.name = codes "age" then
          { name := c.name, kind := .numeric, cells := c.cells.map ageCell }
        else c))
      { name := codes "age_band", kind := .cat,
        cells := (ageColCells t).map (fun v => bandCell (ageCell v)) }
  else t

/-- Failure of the full-name fallback: `AttributeError` when
`df.get("last_name")` returned `None`, `TypeError` when string
concatenation meets a non-string cell. -/
inductive NameErr where
  | attrError | typeError
deriving DecidableEq, Repr

/-- Python `Series.fillna("")` on one cell. -/
def fillnaEmpty (v : Value) : Value := if v = .null then .str [] else v

/-- One row of `first.fillna("") + " " + last.fillna("")` followed by
collapsing whitespace runs to single spaces and stripping (line 87);
adding a non-string raises `TypeError`. -/
def concatCells (a b : Value) : Except NameErr Value :=
  match fillnaEmpty a, fillnaEmpty b with
  | .str x, .str y =>
    .ok (.str (stripLN (collapseRuns 32 false (x ++ 32 :: y))))
  | _, _ => .error .typeError

/-- Element-wise concatenation of the two name columns. -/
def zipConcat : List Value → List Value → Except NameErr (List Value)
  | [], [] => .ok []
  | a :: as, b :: bs => do
    let v ← concatCells a b
    let vs ← zipConcat as bs
    .ok (v :: vs)
  | _, _ => .error .typeError

/-- Full-name fallback stage, lines 84-89.  When no "fullname" column
exists but a first-name column does, the script reads the last-name
column with `df.get`, which yields `None` when absent: the subsequent
`.fillna` then raises `AttributeError`. -/
def fullnameStage (t : Table) : Except NameErr Table :=
  if ¬hasCol t (codes "fullname") ∧
      (hasCol t (codes "firstname") ∨ hasCol t (codes "first_name")) then
    match (if hasCol t (codes "firstname") then findCol t (codes "firstname")
           else findCol t (codes "first_name")) with
    | none => .ok t
    | some first =>
      match (if hasCol t (codes "lastname") then findCol t (codes "lastname")
             else findCol t (codes "last_name")) with
      | none => .error .attrError
      | some last =>
        match zipConcat first.cells last.cells with
        | .error e => .error e
        | .ok cells =>
          .ok (setCol t { name := codes "fullname", kind := .obj, cells := cells })
  else if hasCol t (codes "fullname") then
    .ok (t.map (fun c =>
      if c.name = codes "fullname" then
        { name := c.name, kind := .obj,
          cells := c.cells.map (fun v => .str (stripLN (cellToStr v))) }
      else c))
  else .ok t

/-- Membership flag coercion of one cell, line 94:
`to_numeric(errors="coerce").fillna(0).astype(int)`. -/
def membershipCell (v : Value) : Value :=
  match toNumericCell v with
  | .num n => .num n
  | _ => .num 0

/-- Membership status of one coerced flag cell, line 96:
`np.where(flag == 1, "Active", "Inactive")`. -/
def statusCell (v : Value) : Value :=
  if v = .num 1 then .str (codes "Active") else .str (codes "Inactive")

/-- Membership flag columns of line 92. -/
def membershipNames : List Str :=
  [codes "ismembershipactive", codes "ismembershiptakendirectly"]

/-- Membership stage, lines 92-96: coerce both flag columns and, when
the primary flag exists, append the derived "membership_status" column. -/
def membershipStage (t : Table) : Table :=
  let t2 := t.map (fun c =>
    if c.name ∈ membershipNames then
      { name := c.name, kind := .numeric, cells := c.cells.map membershipCell }
    else c)
  if hasCol t2 (codes "ismembershipactive") then
    setCol t2
      { name := codes "membership_status", kind := .obj,
        cells := (match findCol t2 (codes "ismembershipactive") with
                  | some c => c.cells.map statusCell
                  | none => []) }
  else t2

/-- Columns of `t` bearing the given names, in the names' order
(absent names skipped), as a `drop_duplicates` subset. -/
def colsFor (t : Table) (names : List Str) : List Column :=
  names.filterMap (findCol t)

/-- Identifier-like key column names of line 99, in preference order. -/
def idKeyNames : List Str :=
  [codes "patientid", codes "patient_id", codes "guid", codes "patientguid"]

/-- Fallback deduplication subset names of line 103. -/
def fbNames : List Str :=
  [codes "fullname", codes "mobile", codes "mobileno", codes "phone",
   codes "age", codes "sex", codes "gender"]

/-- Key of row `i` restricted to the subset columns `cols`. -/
def rowKey (cols : List Column) (i : Nat) : List Value :=
  cols.map (fun c => c.cells.getD i Value.null)

/-- Indices of rows kept by `drop_duplicates(keep="first")` on subset
`cols`: a row survives iff no earlier row has the same key. -/
def keepIdx (cols : List Column) (n : Nat) : List Nat :=
  (List.range n).filter
    (fun i => (List.range i).all (fun j => decide (rowKey cols j ≠ rowKey cols i)))

/-- Deduplication of `t` on the subset `cols`, keeping first
occurrences in original order. -/
def dedupBy (cols : List Column) (t : Table) : Table :=
  let keep := keepIdx cols (nRows t)
  t.map (fun c => { c with cells := keep.map (fun i => c.cells.getD i Value.null) })

/-- Deduplication stage, lines 99-104: subset = every present
identifier-like column, else every present fallback column, else all
columns. -/
def dedupStage (t : Table) : Table :=
  let kc := colsFor t idKeyNames
  if kc ≠ [] then dedupBy kc t
  else
    let fb := colsFor t fbNames
    if fb ≠ [] then dedupBy fb t else dedupBy t t

/-- Name test of line 108: does the normalized name contain "id",
"guid" or "code"? -/
def idGuidCode (s : Str) : Bool :=
  subStrB (codes "id") s || subStrB (codes "guid") s || subStrB (codes "code") s

/-- Missing handling of one column, lines 107-109: object columns whose
name avoids "id"/"guid"/"code" get their nulls replaced by "Unknown". -/
def fillCol (c : Column) : Column :=
  if c.kind = .obj ∧ idGuidCode c.name = false then
    { c with cells :=
        c.cells.map (fun v => if v = .null then .str (codes "Unknown") else v) }
  else c

/-- Missing handling stage, lines 107-109. -/
def fillStage (t : Table) : Table := t.map fillCol

/-- Number of null cells of a column, `df[c].isna().sum()`. -/
def missingCount (c : Column) : Nat :=
  c.cells.countP (fun v => decide (v = Value.null))

/-- Number of non-null cells of a column. -/
def nonNullCount (c : Column) : Nat :=
  c.cells.countP (fun v => decide (v ≠ Value.null))

/-- Round-half-to-even on a rational, the tie rule of IEEE and numpy,
computed on the reduced numerator and denominator (the denominator is
positive, so Euclidean division is flooring). -/
def roundHalfEven (q : ℚ) : ℤ :=
  let d := q.num.ediv (q.den : ℤ)
  let r := q.num.emod (q.den : ℤ)
  if 2 * r < (q.den : ℤ) then d
  else if (q.den : ℤ) < 2 * r then d + 1
  else if d.emod 2 = 0 then d else d + 1

/-- Rounding to 4 decimal places, `Series.round(4)` of line 113. -/
def round4 (q : ℚ) : ℚ := (roundHalfEven (q * 10000) : ℚ) / 10000

/-- Missing percentage of a column over the table, line 113. -/
def missingPct (t : Table) (c : Column) : ℚ :=
  round4 ((missingCount c : ℚ) / (nRows t : ℚ))

/-- Missing-value summary, lines 112-113: per column its name, null
count and rounded null proportion. -/
def missingSummary (t : Table) : List (Str × Nat × ℚ) :=
  t.map (fun c => (c.name, missingCount c, missingPct t c))

/-- The whole cleaning pipeline of lines 36-109, from the raw table to
the cleaned, deduplicated, null-filled table that the summaries, charts
and exports then read.  `dp` is the `pd.to_datetime` library call. -/
def pipeline (dp : Value → Value) (t : Table) : Except NameErr Table :=
  match fullnameStage (ageStage (genderStage (dateStage dp (coerceNumericStage
      (lightCleanStage (normalizeHeaders t)))))) with
  | .error e => .error e
  | .ok t4 => .ok (fillStage (dedupStage (membershipStage t4)))


/-! ### Character-level and list-level helper lemmas -/

theorem lowerN_lowerN (n : Nat) : lowerN (lowerN n) = lowerN n := by
  unfold lowerN
  split_ifs <;> omega

theorem wordB_lowerN {n : Nat} (h : wordB n = true) : wordB (lowerN n) = true := by
  simp only [wordB, decide_eq_true_eq] at h ⊢
  unfold lowerN
  split_ifs <;> omega

theorem wsB_lowerN {n : Nat} (h : wordB n = true) : wsB (lowerN n) = false := by
  simp only [wordB, decide_eq_true_eq] at h
  simp only [wsB, decide_eq_false_iff_not]
  unfold lowerN
  split_ifs <;> omega

theorem mem_collapseRuns {r : Nat} :
    ∀ {b : Bool} {l : Str} {c : Nat}, c ∈ collapseRuns r b l →
      c = r ∨ (c ∈ l ∧ wsB c = false) := by
  intro b l
  induction l generalizing b with
  | nil => intro c hc; simp [collapseRuns] at hc
  | cons a as ih =>
    intro c hc
    by_cases ha : wsB a = true
    · simp only [collapseRuns, ha, if_true] at hc
      cases b with
      | true =>
        rcases ih hc with h | ⟨h1, h2⟩
        · exact Or.inl h
        · exact Or.inr ⟨List.mem_cons_of_mem _ h1, h2⟩
      | false =>
        rcases List.mem_cons.mp hc with h | h
        · exact Or.inl h
        · rcases ih h with h2 | ⟨h3, h4⟩
          · exact Or.inl h2
          · exact Or.inr ⟨List.mem_cons_of_mem _ h3, h4⟩
    · simp only [collapseRuns, ha, if_false, Bool.not_eq_true] at hc
      rw [if_neg (by simp [ha])] at hc
      rcases List.mem_cons.mp hc with h | h
      · subst h
        exact Or.inr ⟨List.mem_cons_self _ _, by simpa using ha⟩
      · rcases ih h with h2 | ⟨h3, h4⟩
        · exact Or.inl h2
        · exact Or.inr ⟨List.mem_cons_of_mem _ h3, h4⟩

theorem collapseRuns_eq_self {r : Nat} :
    ∀ {l : Str}, (∀ c ∈ l, wsB c = false) → collapseRuns r false l = l := by
  intro l
  induction l with
  | nil => intro _; rfl
  | cons a as ih =>
    intro h
    have ha : wsB a = false := h a (List.mem_cons_self _ _)
    simp only [collapseRuns, ha, Bool.false_eq_true, if_false]
    rw [ih (fun c hc => h c (List.mem_cons_of_mem _ hc))]

theorem dropWhile_wsB_eq_self {l : Str} (h : ∀ c ∈ l, wsB c = false) :
    l.dropWhile wsB = l := by
  cases l with
  | nil => rfl
  | cons a as =>
    rw [List.dropWhile_cons_of_neg]
    simp [h a (List.mem_cons_self _ _)]

theorem stripLN_eq_self {l : Str} (h : ∀ c ∈ l, wsB c = false) :
    stripLN l = l := by
  unfold stripLN
  rw [dropWhile_wsB_eq_self h, dropWhile_wsB_eq_self, List.reverse_reverse]
  intro c hc
  exact h c (List.mem_reverse.mp hc)

theorem map_lowerN_eq_self {l : Str} (h : ∀ c ∈ l, lowerN c = c) :
    l.map lowerN = l := by
  induction l with
  | nil => rfl
  | cons a as ih =>
    simp only [List.map_cons, h a (List.mem_cons_self _ _), List.cons.injEq, true_and]
    exact ih (fun c hc => h c (List.mem_cons_of_mem _ hc))

theorem to_snake_chars {s : Str} {c : Nat} (hc : c ∈ to_snake s) :
    wordB c = true ∧ wsB c = false ∧ lowerN c = c := by
  unfold to_snake lowerStr at hc
  rcases List.mem_map.mp hc with ⟨d, hd, rfl⟩
  have hdw : wordB d = true := by
    rcases mem_collapseRuns hd with rfl | ⟨hmem, hws⟩
    · decide
    · rcases List.mem_filter.mp hmem with ⟨_, hkeep⟩
      simp only [keepB, Bool.or_eq_true] at hkeep
      rcases hkeep with h | h
      · exact h
      · rw [h] at hws; cases hws
  exact ⟨wordB_lowerN hdw, wsB_lowerN hdw, lowerN_lowerN d⟩

/-- Idempotence of the header normalizer: its image consists of
whitespace-free, already-lowercase word characters, on which every pass
of `to_snake` acts as the identity. -/
theorem to_snake_idem (s : Str) : to_snake (to_snake s) = to_snake s := by
  have hchars := fun c hc => to_snake_chars (s := s) (c := c) hc
  conv_lhs => rw [to_snake]
  rw [stripLN_eq_self (fun c hc => (hchars c hc).2.1)]
  rw [List.filter_eq_self.mpr (fun c hc => by
    simp only [keepB, Bool.or_eq_true]
    exact Or.inl (hchars c hc).1)]
  rw [collapseRuns_eq_self (fun c hc => (hchars c hc).2.1)]
  unfold lowerStr
  exact map_lowerN_eq_self (fun c hc => (hchars c hc).2.2)

/-! ### Claim C7 -/

/-- C7: the column-name normalization `to_snake` is idempotent
(normalizing a normalized name changes nothing), and on the spec's
example it is case- and whitespace-insensitive:
`to_snake "Patient ID " = to_snake "patient_id"`. -/
theorem c7_to_snake_idempotent :
    (∀ s : Str, to_snake (to_snake s) = to_snake s) ∧
    to_snake (codes "Patient ID ") = to_snake (codes "patient_id") :=
  ⟨to_snake_idem, by decide⟩

/-! ### Cell-level facts about numeric coercion, age and gender -/

theorem toNumericCell_shape (v : Value) :
    toNumericCell v = .null ∨ ∃ n : Int, toNumericCell v = .num n := by
  cases v with
  | null => exact Or.inl rfl
  | num n => exact Or.inr ⟨n, rfl⟩
  | str s =>
    simp only [toNumericCell]
    cases parseIntStr s with
    | none => exact Or.inl rfl
    | some n => exact Or.inr ⟨n, rfl⟩

theorem ageCell_cases (v : Value) :
    ageCell v = .null ∨ ∃ n : Int, ageCell v = .num n ∧ 0 ≤ n ∧ n ≤ 120 := by
  unfold ageCell
  rcases toNumericCell_shape v with h | ⟨n, h⟩ <;> rw [h]
  · exact Or.inl rfl
  · simp only [rangeCell]
    split_ifs with hr
    · exact Or.inl rfl
    · exact Or.inr ⟨n, rfl, by omega, by omega⟩

theorem bandCell_null_iff {n : Int} (h0 : 0 ≤ n) (h120 : n ≤ 120) :
    bandCell (.num n) = .null ↔ n = 0 := by
  simp only [bandCell]
  split_ifs <;> simp_all <;> omega

/-! ### Claim C3 -/

/-- C3 counterexample: at input age 0 the cleaned age is the non-null
value 0, yet `pd.cut` (whose first bin is the left-open interval (0,12])
assigns a null band, refuting "age_band is null iff age is null". -/
theorem c3_counterexample :
    ¬ (bandCell (ageCell (.num 0)) = .null ↔ ageCell (.num 0) = .null) := by
  decide

/-- C3 (amended): after the age stage every age cell is null or a number
in [0,120]; the derived band is null exactly when the cleaned age is
null or equal to 0 (ages in [1,120] receive a band, age 0 does not,
because every `pd.cut` bin excludes its left endpoint). -/
theorem c3_age_range_band (v : Value) :
    (ageCell v = .null ∨ ∃ n : Int, ageCell v = .num n ∧ 0 ≤ n ∧ n ≤ 120) ∧
    (bandCell (ageCell v) = .null ↔ (ageCell v = .null ∨ ageCell v = .num 0)) := by
  refine ⟨ageCell_cases v, ?_⟩
  rcases ageCell_cases v with h | ⟨n, h, h0, h120⟩ <;> rw [h]
  · simp [bandCell]
  · rw [bandCell_null_iff h0 h120]
    constructor
    · rintro rfl
      exact Or.inr rfl
    · rintro (hc | hc)
      · cases hc
      · injection hc

/-! ### Claim C6 -/

theorem genderCell_mem (v : Value) :
    genderCell v = .str (codes "M") ∨ genderCell v = .str (codes "F") ∨
    genderCell v = .str (codes "O") ∨ genderCell v = .str (codes "Unknown") := by
  simp only [genderCell]
  split_ifs with h
  · rcases h with h | h | h <;> rw [h] <;> simp
  · right; right; right; rfl

/-- C6: whenever a gender-bearing column exists ("sex" first, then
"gender"), every cell of that column after the gender stage is one of
"M", "F", "O", "Unknown"; and the cell-level map sends m/male to M,
f/female to F, o/other/others to O (case-insensitively, after
stripping), and anything else - including null - to "Unknown". -/
theorem c6_gender_domain (t : Table) (g : Str) (c : Column)
    (hg : genderColName t = some g) (hc : c ∈ genderStage t) (hn : c.name = g) :
    (∀ w ∈ c.cells,
      w = .str (codes "M") ∨ w = .str (codes "F") ∨
      w = .str (codes "O") ∨ w = .str (codes "Unknown")) ∧
    genderCell (.str (codes "m")) = .str (codes "M") ∧
    genderCell (.str (codes " Male ")) = .str (codes "M") ∧
    genderCell (.str (codes "f")) = .str (codes "F") ∧
    genderCell (.str (codes "FEMALE")) = .str (codes "F") ∧
    genderCell (.str (codes "o")) = .str (codes "O") ∧
    genderCell (.str (codes "Other")) = .str (codes "O") ∧
    genderCell (.str (codes "others")) = .str (codes "O") ∧
    genderCell (.str (codes "xyz")) = .str (codes "Unknown") ∧
    genderCell .null = .str (codes "Unknown") := by
  refine ⟨?_, by decide, by decide, by decide, by decide, by decide, by decide,
          by decide, by decide, by decide⟩
  intro w hw
  simp only [genderStage, hg] at hc
  rcases List.mem_map.mp hc with ⟨c0, hc0, rfl⟩
  by_cases hname : c0.name = g
  · simp only [hname, if_true] at hw ⊢
    rcases List.mem_map.mp hw with ⟨v, _, rfl⟩
    exact genderCell_mem v
  · rw [if_neg hname] at hn
    exact absurd hn hname

/-- Instantiation of `c6_gender_domain` on a one-column table, read at
the one cell of the normalized gender column. -/
theorem c6_gender_domain_witness :
    Value.str (codes "M") = Value.str (codes "M") ∨
    Value.str (codes "M") = Value.str (codes "F") ∨
    Value.str (codes "M") = Value.str (codes "O") ∨
    Value.str (codes "M") = Value.str (codes "Unknown") :=
  (c6_gender_domain
    [{ name := codes "sex", kind := .obj, cells := [.str (codes "Male")] }]
    (codes "sex")
    { name := codes "sex", kind := .obj, cells := [.str (codes "M")] }
    (by decide) (by decide) rfl).1 (Value.str (codes "M")) (by decide)

/-! ### Claim C5 -/

/-- C5 counterexample: the flag value "2" is parsable, so the coerced
membership column contains the integer 2, which is neither 0 nor 1 -
refuting "contains only the integers 0 or 1". -/
theorem c5_counterexample :
    (findCol
      (membershipStage
        [{ name := codes "ismembershipactive", kind := .obj,
           cells := [.str (codes "2")] }])
      (codes "ismembershipactive")).map Column.cells = some [Value.num 2] ∧
    Value.num 2 ≠ Value.num 0 ∧ Value.num 2 ≠ Value.num 1 := by
  decide

/-- C5 (amended): membership-flag coercion always yields an integer
cell (never null), with null or unparsable inputs mapped to 0, but
parsable values are not clamped to 0/1 (e.g. "2" stays 2); the derived
membership_status of a coerced flag is "Active" exactly when the flag
equals 1, and is otherwise "Inactive". -/
theorem c5_membership_flags (v : Value) (n : Int) :
    membershipCell v ≠ .null ∧
    (∃ m : Int, membershipCell v = .num m) ∧
    (toNumericCell v = .null → membershipCell v = .num 0) ∧
    (v = .null → membershipCell v = .num 0) ∧
    (statusCell (.num n) = .str (codes "Active") ↔ n = 1) ∧
    (statusCell (.num n) = .str (codes "Active") ∨
      statusCell (.num n) = .str (codes "Inactive")) := by
  have hshape : membershipCell v ≠ .null ∧ ∃ m : Int, membershipCell v = .num m := by
    unfold membershipCell
    rcases toNumericCell_shape v with h | ⟨m, h⟩ <;> rw [h] <;> simp
  have hnone : toNumericCell v = .null → membershipCell v = .num 0 := by
    intro h
    unfold membershipCell
    rw [h]
  have hstatus : statusCell (.num n) = .str (codes "Active") ↔ n = 1 := by
    unfold statusCell
    split_ifs with h
    · injection h with h2
      simp [h2]
    · constructor
      · intro h2
        exact absurd h2 (by decide)
      · intro h2
        exact absurd (by rw [h2] : Value.num n = Value.num 1) h
  refine ⟨hshape.1, hshape.2, hnone, fun hv => hnone (by rw [hv]; rfl), hstatus, ?_⟩
  unfold statusCell
  split_ifs with h
  · exact Or.inl rfl
  · exact Or.inr rfl

/-- Instantiation of `c5_membership_flags` at a null flag cell. -/
theorem c5_membership_flags_witness :
    membershipCell Value.null = Value.num 0 :=
  (c5_membership_flags Value.null 1).2.2.2.1 rfl

/-! ### Structural facts about dedup, fill and the summary -/

theorem fillCol_name (c : Column) : (fillCol c).name = c.name := by
  unfold fillCol
  split_ifs <;> rfl

theorem fillCol_kind (c : Column) : (fillCol c).kind = c.kind := by
  unfold fillCol
  split_ifs <;> rfl

theorem fillCol_length (c : Column) : (fillCol c).cells.length = c.cells.length := by
  unfold fillCol
  split_ifs
  · exact List.length_map _ _
  · rfl

theorem dedupStage_eq_dedupBy (t : Table) : ∃ cols, dedupStage t = dedupBy cols t := by
  unfold dedupStage
  dsimp only
  split_ifs <;> exact ⟨_, rfl⟩

theorem mem_dedupBy_length {cols : List Column} {t : Table} {c : Column}
    (hc : c ∈ dedupBy cols t) :
    c.cells.length = (keepIdx cols (nRows t)).length := by
  rcases List.mem_map.mp hc with ⟨c0, _, rfl⟩
  exact List.length_map _ _

theorem nRows_dedupBy (cols : List Column) (t : Table) (h : t ≠ []) :
    nRows (dedupBy cols t) = (keepIdx cols (nRows t)).length := by
  cases t with
  | nil => exact absurd rfl h
  | cons c cs => exact List.length_map _ _

theorem nRows_fillStage (t : Table) : nRows (fillStage t) = nRows t := by
  cases t with
  | nil => rfl
  | cons c cs => exact fillCol_length c

theorem final_wf (t : Table) :
    ∀ c ∈ fillStage (dedupStage t), c.cells.length = nRows (fillStage (dedupStage t)) := by
  intro c hc
  rcases dedupStage_eq_dedupBy t with ⟨cols, hd⟩
  rw [hd] at hc ⊢
  rcases List.mem_map.mp hc with ⟨c0, hc0, rfl⟩
  rw [nRows_fillStage, fillCol_length]
  cases t with
  | nil =>
    simp [dedupBy] at hc0
  | cons a as =>
    rw [nRows_dedupBy cols _ (by simp), mem_dedupBy_length hc0]

theorem missing_add_nonNull (c : Column) :
    missingCount c + nonNullCount c = c.cells.length := by
  unfold missingCount nonNullCount
  induction c.cells with
  | nil => rfl
  | cons v vs ih =>
    rw [List.countP_cons, List.countP_cons, List.length_cons]
    by_cases hv : v = Value.null
    · rw [if_pos (by simp [hv]), if_neg (by simp [hv])]
      omega
    · rw [if_neg (by simp [hv]), if_pos (by simp [hv])]
      omega

theorem fillCol_unchanged {c : Column} (h : idGuidCode c.name = true) :
    fillCol c = c := by
  unfold fillCol
  rw [if_neg]
  rintro ⟨-, h2⟩
  rw [h] at h2
  cases h2

theorem fillCol_cells_eq {c : Column} (hk : c.kind = .obj)
    (hn : idGuidCode c.name = false) :
    (fillCol c).cells =
      c.cells.map (fun v => if v = .null then .str (codes "Unknown") else v) := by
  unfold fillCol
  rw [if_pos ⟨hk, hn⟩]

theorem fillCol_no_null {c : Column} (hk : c.kind = .obj)
    (hn : idGuidCode c.name = false) :
    ∀ v ∈ (fillCol c).cells, v ≠ .null := by
  intro v hv
  rw [fillCol_cells_eq hk hn] at hv
  rcases List.mem_map.mp hv with ⟨v0, _, rfl⟩
  by_cases h0 : v0 = Value.null
  · simp [h0]
  · rw [if_neg h0]
    exact h0

/-! ### Claim C9 -/

/-- C9: the missing-value finalizer fills every null of every
object-dtype column whose normalized name avoids "id"/"guid"/"code"
with the literal "Unknown" (leaving no null behind in such columns),
and leaves every column whose name contains one of those substrings
completely unchanged. -/
theorem c9_fill_unknown (c : Column) :
    (idGuidCode c.name = true → fillCol c = c) ∧
    (c.kind = .obj → idGuidCode c.name = false →
      (fillCol c).cells =
        c.cells.map (fun v => if v = .null then .str (codes "Unknown") else v) ∧
      ∀ v ∈ (fillCol c).cells, v ≠ .null) :=
  ⟨fun h => fillCol_unchanged h,
   fun hk hn => ⟨fillCol_cells_eq hk hn, fillCol_no_null hk hn⟩⟩

/-- Instantiation of `c9_fill_unknown` on an object column holding one
null: the null is replaced by the literal "Unknown". -/
theorem c9_fill_unknown_witness :
    (fillCol { name := codes "city", kind := .obj, cells := [Value.null] }).cells =
      [Value.str (codes "Unknown")] :=
  (((c9_fill_unknown
      { name := codes "city", kind := .obj, cells := [Value.null] }).2
    rfl (by decide)).1).trans (by decide)

/-! ### Claim C8 -/

/-- C8: in the missing-value summary over the cleaned, deduplicated
table, each column's missing_count plus its non-null count equals the
row count, and its missing_pct is the missing_count divided by the row
count rounded to 4 decimal places; the summary holds exactly this
triple for the column. -/
theorem c8_missing_summary (t : Table) (c : Column)
    (hc : c ∈ fillStage (dedupStage t)) :
    missingCount c + nonNullCount c = nRows (fillStage (dedupStage t)) ∧
    missingPct (fillStage (dedupStage t)) c =
      round4 ((missingCount c : ℚ) / (nRows (fillStage (dedupStage t)) : ℚ)) ∧
    (c.name, missingCount c, missingPct (fillStage (dedupStage t)) c) ∈
      missingSummary (fillStage (dedupStage t)) := by
  refine ⟨?_, rfl, ?_⟩
  · rw [← final_wf t c hc]
    exact missing_add_nonNull c
  · exact List.mem_map.mpr ⟨c, hc, rfl⟩

/-- Instantiation of `c8_missing_summary` on a two-row numeric column
with one null: 1 missing plus 1 present equals 2 rows. -/
theorem c8_missing_summary_witness :
    missingCount { name := codes "x", kind := ColKind.numeric,
                   cells := [Value.null, Value.num 1] } +
    nonNullCount { name := codes "x", kind := ColKind.numeric,
                   cells := [Value.null, Value.num 1] } =
    nRows (fillStage (dedupStage
      [{ name := codes "x", kind := ColKind.numeric,
         cells := [Value.null, Value.num 1] }])) :=
  (c8_missing_summary
    [{ name := codes "x", kind := ColKind.numeric,
       cells := [Value.null, Value.num 1] }]
    { name := codes "x", kind := ColKind.numeric,
      cells := [Value.null, Value.num 1] }
    (by decide)).1

/-! ### Claims C1 and C2 -/

/-- Instantiation of the `pd.to_datetime` parameter.  The concrete
tables below have no date-like column, so the date stage never applies
it and any function would give the same pipeline output. -/
def dp0 : Value → Value := fun v => v

/-- Input table of the spec's end-to-end scenario: columns
"Patient ID", "Age", "Sex" with rows (1,200,"Male"), (1,30,"m"),
(2,-5,"other"). -/
def c1In : Table :=
  [{ name := codes "Patient ID", kind := .numeric,
     cells := [.num 1, .num 1, .num 2] },
   { name := codes "Age", kind := .numeric,
     cells := [.num 200, .num 30, .num (-5)] },
   { name := codes "Sex", kind := .obj,
     cells := [.str (codes "Male"), .str (codes "m"), .str (codes "other")] }]

/-- What the pipeline actually produces on `c1In`: `keep="first"`
deduplication keeps the first id-1 row, whose age 200 was nulled as out
of range, so the surviving id-1 row has null age and null band. -/
def c1Out : Table :=
  [{ name := codes "patient_id", kind := .numeric, cells := [.num 1, .num 2] },
   { name := codes "age", kind := .numeric, cells := [.null, .null] },
   { name := codes "sex", kind := .obj,
     cells := [.str (codes "M"), .str (codes "O")] },
   { name := codes "age_band", kind := .cat, cells := [.null, .null] }]

set_option maxHeartbeats 2000000 in
theorem c1_eval : pipeline dp0 c1In = Except.ok c1Out := rfl

/-- C1 counterexample: on the scenario input the pipeline outputs
`c1Out`, and no output row equals the row the claim predicts for id 1
(age 30, band "19-30", gender "M"): deduplication keeps the FIRST
occurrence, which is the age-200 row whose age was nulled. -/
theorem c1_counterexample :
    pipeline dp0 c1In = Except.ok c1Out ∧
    ∀ i ∈ List.range (nRows c1Out),
      rowAt c1Out i ≠
        [Value.num 1, Value.num 30, Value.str (codes "M"),
         Value.str (codes "19-30")] :=
  ⟨c1_eval, by decide⟩

/-- C1 (amended): on the scenario input, exactly one row with id 1
survives - the first in original order - with age null (200 was out of
range), age_band null and gender "M"; the id-2 row has age null (from
-5), age_band null and gender "O". -/
theorem c1_pipeline_scenario :
    pipeline dp0 c1In = Except.ok c1Out ∧
    rowAt c1Out 0 = [Value.num 1, Value.null, Value.str (codes "M"), Value.null] ∧
    rowAt c1Out 1 = [Value.num 2, Value.null, Value.str (codes "O"), Value.null] ∧
    nRows c1Out = 2 :=
  ⟨c1_eval, by decide, by decide, rfl⟩

/-- Input table exercising the full-name fallback with a first-name
column but no last-name column. -/
def c2In : Table :=
  [{ name := codes "firstname", kind := .obj, cells := [.str (codes "John")] }]

/-- C2: with a "firstname" column and no combined or last-name column,
`df.get("last_name")` yields None and the subsequent `.fillna("")`
raises AttributeError, aborting the whole pipeline - the deriver does
NOT complete without error as the spec promises. -/
theorem c2_fullname_attrError :
    fullnameStage c2In = Except.error NameErr.attrError ∧
    pipeline dp0 c2In = Except.error NameErr.attrError :=
  ⟨rfl, rfl⟩

/-! ### Claim C4 -/

/-- Composite keys of all rows of `t` under the subset named `names`. -/
def keysOf (t : Table) (names : List Str) : List (List Value) :=
  (List.range (nRows t)).map (rowKey (colsFor t names))

/-- Keep-first deduplication of a list of keys; `seen` holds the keys
already emitted. -/
def keepFirstsAux (seen : List (List Value)) : List (List Value) → List (List Value)
  | [] => []
  | k :: ks =>
    if k ∈ seen then keepFirstsAux seen ks
    else k :: keepFirstsAux (k :: seen) ks

/-- The distinct keys of a list in first-occurrence order. -/
def keepFirsts (l : List (List Value)) : List (List Value) := keepFirstsAux [] l

theorem keepFirstsAux_append_singleton (x : List Value) :
    ∀ (l : List (List Value)) (seen : List (List Value)),
      keepFirstsAux seen (l ++ [x]) =
        keepFirstsAux seen l ++ (if x ∈ seen ∨ x ∈ l then [] else [x]) := by
  intro l
  induction l with
  | nil =>
    intro seen
    by_cases hx : x ∈ seen
    · simp [keepFirstsAux, hx]
    · simp [keepFirstsAux, hx]
  | cons k l ih =>
    intro seen
    by_cases hk : k ∈ seen
    · rw [List.cons_append]
      simp only [keepFirstsAux, hk, if_true]
      rw [ih seen]
      congr 1
      have hcond : (x ∈ seen ∨ x ∈ l) ↔ (x ∈ seen ∨ x ∈ k :: l) := by
        simp only [List.mem_cons]
        constructor
        · tauto
        · rintro (h | rfl | h)
          · exact Or.inl h
          · exact Or.inl hk
          · exact Or.inr h
      by_cases hx : x ∈ seen ∨ x ∈ k :: l
      · rw [if_pos (hcond.mpr hx), if_pos hx]
      · rw [if_neg (fun hc => hx (hcond.mp hc)), if_neg hx]
    · rw [List.cons_append]
      simp only [keepFirstsAux, hk, if_false]
      rw [ih (k :: seen), List.cons_append]
      congr 1
      have hcond : (x ∈ k :: seen ∨ x ∈ l) ↔ (x ∈ seen ∨ x ∈ k :: l) := by
        simp only [List.mem_cons]
        tauto
      by_cases hx : x ∈ seen ∨ x ∈ k :: l
      · rw [if_pos (hcond.mpr hx), if_pos hx]
      · rw [if_neg (fun hc => hx (hcond.mp hc)), if_neg hx]

theorem keepIdx_map_key (f : Nat → List Value) (n : Nat) :
    ((List.range n).filter
        (fun i => (List.range i).all (fun j => decide (f j ≠ f i)))).map f
      = keepFirsts ((List.range n).map f) := by
  induction n with
  | zero => rfl
  | succ n ih =>
    rw [List.range_succ, List.filter_append, List.map_append, List.map_append, ih]
    unfold keepFirsts
    rw [List.map_singleton, keepFirstsAux_append_singleton]
    have hp : ((List.range n).all (fun j => decide (f j ≠ f n)) = true)
        ↔ f n ∉ (List.range n).map f := by
      rw [List.all_eq_true]
      constructor
      · intro hall hmem
        rcases List.mem_map.mp hmem with ⟨j, hj, heq⟩
        exact (decide_eq_true_eq.mp (hall j hj)) heq
      · intro hnm j hj
        exact decide_eq_true_eq.mpr (fun heq => hnm (List.mem_map.mpr ⟨j, hj, heq⟩))
    congr 1
    by_cases hmem : f n ∈ (List.range n).map f
    · have hb : ((List.range n).all fun j => decide (f j ≠ f n)) = false :=
        Bool.eq_false_iff.mpr (fun hc => (hp.mp hc) hmem)
      rw [if_pos (Or.inr hmem), List.filter_singleton, hb]
      rfl
    · have hb : ((List.range n).all fun j => decide (f j ≠ f n)) = true :=
        hp.mpr hmem
      rw [if_neg ?hc, List.filter_singleton, hb]
      · rfl
      case hc =>
        rintro (hfalse | hc)
        · cases hfalse
        · exact hmem hc

/-- Two rows sharing "patientid" but differing in "guid": both
identifier-like columns exist, so the script deduplicates on their
composite. -/
def c4In : Table :=
  [{ name := codes "patientid", kind := .numeric, cells := [.num 1, .num 1] },
   { name := codes "guid", kind := .obj,
     cells := [.str (codes "a"), .str (codes "b")] }]

/-- C4 counterexample: `drop_duplicates` receives EVERY present
identifier-like column as its subset, not just the first match, so two
rows with the same "patientid" but different "guid" both survive -
refuting deduplication "for each distinct value of that first matching
column alone". -/
theorem c4_counterexample :
    dedupStage c4In = c4In ∧
    (findCol c4In (codes "patientid")).map Column.cells =
      some [Value.num 1, Value.num 1] ∧
    nRows (dedupStage c4In) = 2 := by
  decide

/-- C4 (amended): when identifier-like columns exist, deduplication
keys on the composite of ALL present identifier-like columns: the
surviving composite keys are exactly the distinct input keys in
first-occurrence order, and every output column holds exactly the cells
of its input column at the kept (first-occurrence) row indices. -/
theorem c4_dedup_composite (t : Table) (h : colsFor t idKeyNames ≠ []) :
    dedupStage t = dedupBy (colsFor t idKeyNames) t ∧
    (keepIdx (colsFor t idKeyNames) (nRows t)).map (rowKey (colsFor t idKeyNames))
      = keepFirsts (keysOf t idKeyNames) ∧
    ∀ c ∈ dedupStage t, ∃ c0 ∈ t,
      c.name = c0.name ∧ c.kind = c0.kind ∧
      c.cells = (keepIdx (colsFor t idKeyNames) (nRows t)).map
                  (fun i => c0.cells.getD i Value.null) := by
  have h1 : dedupStage t = dedupBy (colsFor t idKeyNames) t := by
    unfold dedupStage
    dsimp only
    rw [if_pos h]
  refine ⟨h1, ?_, ?_⟩
  · exact keepIdx_map_key (rowKey (colsFor t idKeyNames)) (nRows t)
  · intro c hc
    rw [h1] at hc
    unfold dedupBy at hc
    dsimp only at hc
    rcases List.mem_map.mp hc with ⟨c0, hc0, rfl⟩
    exact ⟨c0, hc0, rfl, rfl, rfl⟩

/-- Instantiation of `c4_dedup_composite` on `c4In`: both distinct
composite keys survive in order. -/
theorem c4_dedup_composite_witness :
    (keepIdx (colsFor c4In idKeyNames) (nRows c4In)).map (rowKey (colsFor c4In idKeyNames))
      = keepFirsts (keysOf c4In idKeyNames) :=
  (c4_dedup_composite c4In (by decide)).2.1

/-! ### Claim C10 -/

theorem pipeline_ok_shape {dp : Value → Value} {t out : Table}
    (hok : pipeline dp t = Except.ok out) :
    ∃ t4, out = fillStage (dedupStage (membershipStage t4)) := by
  unfold pipeline at hok
  cases h4 : fullnameStage (ageStage (genderStage (dateStage dp (coerceNumericStage
      (lightCleanStage (normalizeHeaders t)))))) with
  | error e =>
    rw [h4] at hok
    cases hok
  | ok t4 =>
    rw [h4] at hok
    injection hok with hout
    exact ⟨t4, hout.symm⟩

/-- Input making the summary count a missing value in a column that is
neither identifier-like nor numeric nor date-parsed: age 150 is nulled,
so the categorical "age_band" column holds a null that the finalizer
(which only touches object columns) never fills. -/
def c10In : Table :=
  [{ name := codes "Age", kind := .numeric, cells := [.num 150] }]

/-- Pipeline output on `c10In`. -/
def c10Out : Table :=
  [{ name := codes "age", kind := .numeric, cells := [.null] },
   { name := codes "age_band", kind := .cat, cells := [.null] }]

/-- C10 counterexample: on `c10In` the summary reports missing_count 1
for "age_band", whose name contains none of "id"/"guid"/"code" and
whose dtype is categorical - not numeric and not date-parsed - so
columns outside the claim's enumeration can show nonzero missing
counts. -/
theorem c10_counterexample :
    pipeline dp0 c10In = Except.ok c10Out ∧
    (missingSummary c10Out).map (fun e => (e.1, e.2.1)) =
      [(codes "age", 1), (codes "age_band", 1)] ∧
    idGuidCode (codes "age_band") = false ∧
    (findCol c10Out (codes "age_band")).map Column.kind = some ColKind.cat :=
  ⟨rfl, by decide, by decide, by decide⟩

/-- C10 (amended): in any successful pipeline run, every object-dtype
column whose name avoids "id"/"guid"/"code" reports missing_count 0
(null filling runs just before summarization), so a column with a
nonzero missing count is identifier/guid/code-named or not of object
dtype (numeric, date-parsed, or the categorical age band). -/
theorem c10_summary_zero_for_filled (dp : Value → Value) (t out : Table)
    (hok : pipeline dp t = Except.ok out) :
    ∀ c ∈ out,
      (c.kind = .obj → idGuidCode c.name = false →
        missingCount c = 0 ∧
        (c.name, 0, missingPct out c) ∈ missingSummary out) ∧
      (missingCount c ≠ 0 → idGuidCode c.name = true ∨ c.kind ≠ .obj) := by
  intro c hc
  rcases pipeline_ok_shape hok with ⟨t4, rfl⟩
  have hzero : c.kind = .obj → idGuidCode c.name = false → missingCount c = 0 := by
    intro hk hn
    rcases List.mem_map.mp hc with ⟨c0, _, rfl⟩
    have hk0 : c0.kind = .obj := by rw [← fillCol_kind c0]; exact hk
    have hn0 : idGuidCode c0.name = false := by rw [← fillCol_name c0]; exact hn
    exact List.countP_eq_zero.mpr
      (fun v hv => by
        simp only [decide_eq_true_eq]
        exact fillCol_no_null hk0 hn0 v hv)
  constructor
  · intro hk hn
    refine ⟨hzero hk hn, ?_⟩
    have hm : (c.name, missingCount c,
        missingPct (fillStage (dedupStage (membershipStage t4))) c) ∈
        missingSummary (fillStage (dedupStage (membershipStage t4))) :=
      List.mem_map.mpr ⟨c, hc, rfl⟩
    rwa [hzero hk hn] at hm
  · intro hmc
    by_cases hk : c.kind = .obj
    · by_cases hn : idGuidCode c.name = true
      · exact Or.inl hn
      · exact absurd (hzero hk (Bool.eq_false_iff.mpr hn)) hmc
    · exact Or.inr hk

/-- Instantiation of `c10_summary_zero_for_filled`: a filled "sex"
column reports zero missing values. -/
theorem c10_summary_zero_witness :
    missingCount { name := codes "sex", kind := ColKind.obj,
                   cells := [Value.str (codes "Unknown")] } = 0 :=
  ((c10_summary_zero_for_filled dp0
      [{ name := codes "Sex", kind := ColKind.obj, cells := [Value.null] }]
      [{ name := codes "sex", kind := ColKind.obj,
         cells := [Value.str (codes "Unknown")] }]
      rfl
      { name := codes "sex", kind := ColKind.obj,
        cells := [Value.str (codes "Unknown")] }
      (by decide)).1 rfl (by decide)).1
